import Mathlib

/-!
Shallow embedding of the drag-and-drop core of `src/src/app/arrange/sortable/Sortable.ts`
and the DOM utilities of `src/unnamed/part_000` (the repo's `utils` module).

DOM elements are modelled as `Child` records carrying exactly the attributes the
embedded code inspects (display, ghost/clone identity, TEMPLATE, draggable match,
animation flag).  A container is its ordered list of children; the set of all
registered containers is a `List (List Child)`.  DOM node identity is modelled by
equality of `Child` values together with uniqueness hypotheses where the code
relies on a node having a single parent.

Helpers that live in `helpers/sortable.js` — a file of this repository that is
absent from `src/` (`_getSwapDirection`, `_ghostIsLast`, `_ghostIsFirst`,
`_dragElInRowColumn`, `onMove`) — are either modelled from the spec (the swap
direction resolver) or taken as oracle inputs of the dragover step (the boolean
geometry predicates and the move-veto hook result), while every piece of control
flow and mutation in `Sortable.ts` itself is translated line by line.
-/

/-- A DOM child element, restricted to the attributes read by the embedded code:
`displayNone` models `css(el, 'display') === 'none'`, `isGhost` identity with the
module-level `ghostEl`, `isClone` identity with `Sortable.clone`, `isTemplate`
the `nodeName === 'TEMPLATE'` test, `draggable` the `matches(el, options.draggable)`
test, and `animated` the `el.animated` flag set by the animation collaborator. -/
structure Child where
  id : Nat
  displayNone : Bool := false
  isGhost : Bool := false
  isClone : Bool := false
  isTemplate : Bool := false
  draggable : Bool := true
  animated : Bool := false
deriving DecidableEq, Repr

/-- The filter applied to each previous sibling by `index` (part_000 lines 486-494):
count it unless it is a TEMPLATE node or the active drag clone, and, when a
selector is given, only when it matches the selector. -/
def indexCounts (selector : Bool) (c : Child) : Bool :=
  !c.isTemplate && !c.isClone && (!selector || c.draggable)

/-- The counting loop of `index` (part_000 lines 485-494): walk the
`previousElementSibling` chain (given nearest-first) and count the siblings
accepted by `indexCounts`. -/
def indexLoop (prev : List Child) (selector : Bool) : Nat :=
  match prev with
  | [] => 0
  | c :: rest => (bif indexCounts selector c then 1 else 0) + indexLoop rest selector

/-- A (possibly null) reference to a DOM element as consumed by the `index`
utility: whether the reference is null, whether the element has a parent node,
and its `previousElementSibling` chain (nearest sibling first). -/
structure DomRef where
  isNull : Bool
  hasParent : Bool
  prevSiblings : List Child
deriving DecidableEq, Repr

/-- The public `index` utility (part_000 lines 478-497): `-1` when the element is
null or has no parent node, otherwise the `indexLoop` count of its previous
element siblings. -/
def indexUtil (el : DomRef) (selector : Bool) : Int :=
  if el.isNull || !el.hasParent then -1
  else indexLoop el.prevSiblings selector

/-- Locates a node inside the list of containers: returns the container index and
the position of its first occurrence inside that container. -/
def findNode (cs : List (List Child)) (x : Child) : Option (Nat × Nat) :=
  match cs with
  | [] => none
  | c :: rest =>
    match c.findIdx? (fun y => decide (y = x)) with
    | some p => some (0, p)
    | none => (findNode rest x).map (fun q => (q.1 + 1, q.2))

/-- The `DomRef` of a node situated in the container forest: no parent when the
node is in no container, otherwise its previous siblings within its container. -/
def situate (cs : List (List Child)) (x : Child) : DomRef :=
  match findNode cs x with
  | none => { isNull := false, hasParent := false, prevSiblings := [] }
  | some q => { isNull := false, hasParent := true,
                prevSiblings := ((cs.getD q.1 []).take q.2).reverse }

/-- `index(el)` / `index(el, selector)` evaluated on a node situated in the
container forest (used by `_onDragOver`'s `changed()` and the adjacency walk). -/
def indexInState (cs : List (List Child)) (x : Child) (selector : Bool) : Int :=
  indexUtil (situate cs x) selector

/-- DOM `insertBefore`: place `x` before the reference child (first occurrence);
a `none` reference is `appendChild`.  Like the DOM, a reference that is not
found degenerates to appending at the end. -/
def insertBeforeRef (c : List Child) (x : Child) (ref : Option Child) : List Child :=
  match ref with
  | none => c ++ [x]
  | some r =>
    match c with
    | [] => [x]
    | y :: ys => if y = r then x :: y :: ys else y :: insertBeforeRef ys x (some r)

/-- DOM semantics of moving a live node: it is first detached from whatever
parent currently holds it.  With the single-parent hypothesis (`x` occurs once
across all containers) this erases exactly that one occurrence. -/
def removeNode (cs : List (List Child)) (x : Child) : List (List Child) :=
  cs.map (fun c => c.erase x)

/-- A DOM `insertBefore`/`appendChild` of a live node into container `dst`:
detach `x` everywhere, then insert it before `ref` (or append) in `dst`. -/
def domInsert (cs : List (List Child)) (dst : Nat) (x : Child) (ref : Option Child) :
    List (List Child) :=
  let cs' := removeNode cs x
  cs'.set dst (insertBeforeRef (cs'.getD dst []) x ref)

-- Conservation lemmas for the DOM move primitive.

theorem insertBeforeRef_perm (c : List Child) (x : Child) (ref : Option Child) :
    (insertBeforeRef c x ref).Perm (x :: c) := by
  match ref with
  | none => simp [insertBeforeRef]
  | some r =>
    induction c with
    | nil => simp [insertBeforeRef]
    | cons y ys ih =>
      by_cases h : y = r
      · simp [insertBeforeRef, h]
      · simp only [insertBeforeRef, if_neg h]
        exact (ih.cons y).trans (List.Perm.swap x y ys)

theorem removeNode_of_count_zero (cs : List (List Child)) (x : Child)
    (h : cs.flatten.count x = 0) : removeNode cs x = cs := by
  induction cs with
  | nil => rfl
  | cons c rest ih =>
    simp only [List.flatten_cons, List.count_append, Nat.add_eq_zero] at h
    simp only [removeNode, List.map_cons]
    rw [List.erase_of_not_mem (by simpa using (List.count_eq_zero.mp h.1))]
    have := ih h.2
    simpa [removeNode] using this

theorem removeNode_perm (cs : List (List Child)) (x : Child)
    (h : cs.flatten.count x = 1) : ((x :: (removeNode cs x).flatten).Perm cs.flatten) := by
  induction cs with
  | nil => simp at h
  | cons c rest ih =>
    simp only [List.flatten_cons, List.count_append] at h
    by_cases hc : x ∈ c
    · have hrest : rest.flatten.count x = 0 := by
        have hc1 : 1 ≤ c.count x := List.count_pos_iff.mpr hc
        omega
      have herase : c.Perm (x :: c.erase x) := List.perm_cons_erase hc
      simp only [removeNode, List.map_cons, List.flatten_cons]
      rw [show (rest.map (fun c => c.erase x)) = removeNode rest x from rfl,
        removeNode_of_count_zero rest x hrest]
      have s1 : (x :: (c.erase x ++ rest.flatten)).Perm ((x :: c.erase x) ++ rest.flatten) := by simp
      have s2 : ((x :: c.erase x) ++ rest.flatten).Perm (c ++ rest.flatten) :=
        herase.symm.append_right _
      exact s1.trans s2
    · have hc0 : c.count x = 0 := List.count_eq_zero.mpr hc
      have hrest : rest.flatten.count x = 1 := by omega
      simp only [removeNode, List.map_cons, List.flatten_cons]
      rw [List.erase_of_not_mem hc]
      have s1 : (x :: (c ++ (rest.map (fun c => c.erase x)).flatten)).Perm
          (c ++ x :: (rest.map (fun c => c.erase x)).flatten) := (List.perm_middle).symm
      have s2 : (c ++ x :: (rest.map (fun c => c.erase x)).flatten).Perm (c ++ rest.flatten) :=
        (ih hrest).append_left c
      exact s1.trans s2

theorem flatten_set_perm (cs : List (List Child)) (dst : Nat) (l : List Child)
    (x : Child) (hdst : dst < cs.length) (hl : l.Perm (x :: cs.getD dst [])) :
    ((cs.set dst l).flatten).Perm (x :: cs.flatten) := by
  induction cs generalizing dst with
  | nil => simp at hdst
  | cons c rest ih =>
    cases dst with
    | zero =>
      simp only [List.set_cons_zero, List.flatten_cons]
      have hl0 : l.Perm (x :: c) := by simpa [List.getD] using hl
      have : (l ++ rest.flatten).Perm ((x :: c) ++ rest.flatten) := hl0.append_right _
      simpa using this
    | succ n =>
      simp only [List.set_cons_succ, List.flatten_cons]
      have hn : n < rest.length := by simpa using hdst
      have hl' : l.Perm (x :: rest.getD n []) := by simpa [List.getD] using hl
      have s1 : (c ++ (rest.set n l).flatten).Perm (c ++ (x :: rest.flatten)) :=
        (ih n hn hl').append_left c
      have s2 : (c ++ x :: rest.flatten).Perm (x :: (c ++ rest.flatten)) := List.perm_middle
      exact s1.trans s2

/-- Moving a live node (one occurrence across all containers) into any in-range
container preserves the multiset of children across all containers. -/
theorem domInsert_perm (cs : List (List Child)) (dst : Nat) (x : Child)
    (ref : Option Child) (hcount : cs.flatten.count x = 1)
    (hdst : dst < cs.length) :
    ((domInsert cs dst x ref).flatten).Perm cs.flatten := by
  have hlen : (removeNode cs x).length = cs.length := by simp [removeNode]
  have h1 : ((domInsert cs dst x ref).flatten).Perm (x :: (removeNode cs x).flatten) := by
    apply flatten_set_perm
    · omega
    · exact insertBeforeRef_perm _ _ _
  exact h1.trans (removeNode_perm cs x hcount)

/-- Inserting a fresh node (present in no container) adds exactly that node to
the multiset of children across all containers. -/
theorem domInsert_fresh_perm (cs : List (List Child)) (dst : Nat) (x : Child)
    (ref : Option Child) (hcount : cs.flatten.count x = 0)
    (hdst : dst < cs.length) :
    ((domInsert cs dst x ref).flatten).Perm (x :: cs.flatten) := by
  have hlen : (removeNode cs x).length = cs.length := by simp [removeNode]
  have h1 : ((domInsert cs dst x ref).flatten).Perm (x :: (removeNode cs x).flatten) := by
    apply flatten_set_perm
    · omega
    · exact insertBeforeRef_perm _ _ _
  rw [removeNode_of_count_zero cs x hcount] at h1
  exact h1

/-- Modelled from the spec: the direction resolver `_getSwapDirection` lives in
`helpers/sortable.js`, a file of this repository that is absent from `src/`.
Per the spec (§4.2): the decision is +1 (place after target) when the pointer's
position along the orientation axis exceeds the point at fraction
`0.5 + threshold/2` of the target's leading-to-trailing-edge span, −1 (place
before) when it is below the `0.5 − threshold/2` point, else 0 (neutral zone);
when the invert condition holds the configured threshold is replaced by the
inverted swap threshold (the inverted analogue).  The hysteresis refinements of
the absent helper are deliberately not modelled (spec §9 defers their literal
arithmetic to the stated intent). -/
def getSwapDirection (mouseOnAxis targetS1 targetLength swapThreshold
    invertedSwapThreshold : ℚ) (invert : Bool) : Int :=
  let threshold := if invert then invertedSwapThreshold else swapThreshold
  if mouseOnAxis > targetS1 + targetLength * (1/2 + threshold/2) then 1
  else if mouseOnAxis < targetS1 + targetLength * (1/2 - threshold/2) then -1
  else 0

/-- Result of the external `onMove` hook (spec §4.4): `veto` is the literal
`false`, `plusOne`/`minusOne` force the insertion side, any other truthy value
(`pass`) keeps the computed side. -/
inductive MoveVector
  | veto
  | minusOne
  | plusOne
  | pass
deriving DecidableEq, Repr

/-- The module-level mutable drag state of Sortable.ts (lines 63-96) restricted
to the fields the embedded handlers read or write, plus the container forest.
`rootIdx`/`parentIdx` locate `rootEl`/`parentEl` among the registered
containers; `silentTimerMs` records the duration passed to the `setTimeout`
that clears `_silent`. -/
structure SortState where
  containers : List (List Child)
  dragEl : Option Child
  rootIdx : Nat
  parentIdx : Nat
  nextEl : Option Child
  silent : Bool
  silentTimerMs : Option Nat
  lastTarget : Option Child
  lastDirection : Option Int
  pastFirstInvertThresh : Bool
  isCircumstantialInvert : Bool
  targetMoveDistance : ℚ
  newIndex : Option Int
  newDraggableIndex : Option Int
deriving DecidableEq, Repr

/-- The per-invocation inputs of `_onDragOver`: the hovered container, the
option values it reads, and oracle fields for the event geometry and for the
helpers that live outside `src/` (`_ghostIsLast`, `_ghostIsFirst`,
`_dragElInRowColumn` appear as the booleans `ghostIsLast`, `ghostIsFirst`,
`differentRowCol`; the `onMove` hook verdict as `moveVector`).
`earlySkip` is the compound early-return condition of lines 1004-1010 and
`completedNullsLastTarget` the animation-dependent condition of lines 959-964. -/
structure DragOverInput where
  dstIdx : Nat
  activeSortable : Bool
  disabled : Bool
  isOwner : Bool
  canSort : Bool
  putSortableIsThis : Bool
  checkPull : Bool
  checkPut : Bool
  eventCanceled : Bool
  earlySkip : Bool
  completedNullsLastTarget : Bool
  ghostIsLast : Bool
  ghostIsFirst : Bool
  target : Option Child
  mouseOnAxis : ℚ
  targetS1 : ℚ
  targetLength : ℚ
  targetS1After : ℚ
  differentRowCol : Bool
  swapThreshold : ℚ
  invertedSwapThreshold : Option ℚ
  invertSwap : Bool
  moveVector : MoveVector
deriving DecidableEq, Repr

/-- Line 1018: `revert = parentEl !== rootEl`, assigned only when the hovered
list is the owner and sorting is disabled there. -/
def revertCond (s : SortState) (i : DragOverInput) : Bool :=
  i.isOwner && !i.canSort && decide (s.parentIdx ≠ s.rootIdx)

/-- The permission condition of lines 1014-1027: an active drag, an enabled
list, and either same-group sorting/reverting or the group arbiter's
pull-and-put verdict. -/
def permissionOk (s : SortState) (i : DragOverInput) : Bool :=
  i.activeSortable && !i.disabled &&
    (if i.isOwner then (i.canSort || revertCond s i)
     else (i.putSortableIsThis || (i.checkPull && i.checkPut)))

/-- Walk of `lastChild` (part_000 lines 456-469) over the reversed child list:
skip the ghost, hidden elements, and children not matching the draggable
selector. -/
def lastChildAux (rev : List Child) : Option Child :=
  match rev with
  | [] => none
  | c :: rest =>
    if c.isGhost || c.displayNone || !c.draggable then lastChildAux rest else some c

/-- The `lastChild(el, options.draggable)` utility (part_000 lines 456-469). -/
def lastChildUtil (children : List Child) : Option Child :=
  lastChildAux children.reverse

/-- The `getChild` utility (part_000 lines 417-448): nth child skipping hidden
children, the ghost, the dragged element (unless `includeDragEl`), and children
not matching the draggable selector. -/
def getChildAux (children : List Child) (childNum : Nat) (includeDragEl : Bool)
    (dragged : Option Child) : Option Child :=
  match children with
  | [] => none
  | c :: rest =>
    if !c.displayNone && !c.isGhost && (includeDragEl || decide (some c ≠ dragged))
        && c.draggable then
      if childNum = 0 then some c
      else getChildAux rest (childNum - 1) includeDragEl dragged
    else getChildAux rest childNum includeDragEl dragged

/-- `x.nextElementSibling` within its parent's child list. -/
def nextSiblingOf (children : List Child) (x : Child) : Option Child :=
  match children with
  | [] => none
  | c :: rest => if c = x then rest.head? else nextSiblingOf rest x

/-- The adjacency walk of lines 1171-1177: starting from the dragged element's
`index`, repeatedly step opposite to the decided direction through the raw
`parentEl.children` array, skipping hidden elements and the ghost; a do-while
loop, given enough fuel to run off either end of the list. -/
def adjWalk (children : List Child) (idx direction : Int) (fuel : Nat) : Option Child :=
  match fuel with
  | 0 => none
  | fuel + 1 =>
    let idx' := idx - direction
    match (if 0 ≤ idx' then children[idx'.toNat]? else none) with
    | none => none
    | some sib =>
      if sib.displayNone || sib.isGhost then adjWalk children idx' direction fuel
      else some sib

/-- Lines 1141-1146: the circumstantial-invert flag is recomputed when the
hovered target changes — invert-swap configured on a shared row/column, or a
different nesting level. -/
def circInvertAt (s : SortState) (i : DragOverInput) (differentLevel : Bool)
    (t : Child) : Bool :=
  if s.lastTarget = some t then s.isCircumstantialInvert
  else (!i.differentRowCol && i.invertSwap) || differentLevel

/-- The call-site threshold selection of line 1153: threshold 1 (certainty)
when the dragged element and target do not share a row/column under the
orientation, else the configured `swapThreshold`. -/
def effectiveSwapThreshold (differentRowCol : Bool) (swapThreshold : ℚ) : ℚ :=
  if differentRowCol then 1 else swapThreshold

/-- Lines 1148-1163: the resolver invocation, with the call-site threshold
selection; the inverted threshold defaults to `swapThreshold` when
`invertedSwapThreshold` is null (lines 1154-1156). -/
def swapDirectionAt (s : SortState) (i : DragOverInput) (differentLevel : Bool)
    (t : Child) : Int :=
  getSwapDirection i.mouseOnAxis i.targetS1 i.targetLength
    (effectiveSwapThreshold i.differentRowCol i.swapThreshold)
    (i.invertedSwapThreshold.getD i.swapThreshold)
    (circInvertAt s i differentLevel t)

/-- The container mutation common to every committed placement (lines
1041-1045, 1086-1091, 1119, 1214-1221) followed by the `parentEl`
actualization: a DOM move of the dragged element into the destination list. -/
def commitInsert (s : SortState) (d : Child) (dst : Nat) (ref : Option Child) :
    SortState :=
  { s with containers := domInsert s.containers dst d ref, parentIdx := dst }

/-- `changed()` (lines 986-989): record the dragged element's new raw and
draggable indices. -/
def changedUpd (s : SortState) (d : Child) : SortState :=
  { s with newIndex := some (indexInState s.containers d false),
           newDraggableIndex := some (indexInState s.containers d true) }

/-- The state effect of `completed(...)` (lines 918-983): `lastTarget` is
nulled when the hovered target is the dragged element or the root itself (the
animation-dependent condition of lines 959-964, supplied as an oracle); the
clone, class and animation work inside `completed` acts on visual collaborators
only. -/
def completedUpd (s : SortState) (i : DragOverInput) : SortState :=
  if i.completedNullsLastTarget then { s with lastTarget := none } else s

/-- Lines 1053-1096: the insert-to-end-of-list branch, entered when there is no
draggable last child or the ghost is past it.  A last child equal to the
dragged element is a no-op; otherwise, unless the `onMove` hook vetoes, the
dragged element is inserted after the last draggable child (before its raw next
sibling when one exists, else appended). -/
def endInsertBranch (s : SortState) (i : DragOverInput) (d : Child) :
    SortState × Bool :=
  let dstChildren := s.containers.getD i.dstIdx []
  let elLastChild := lastChildUtil dstChildren
  if elLastChild = some d then (completedUpd s i, true)
  else
    match i.moveVector with
    | MoveVector.veto =>
      if d ∈ dstChildren then (completedUpd s i, true) else (s, false)
    | _ =>
      let ref := elLastChild.bind (nextSiblingOf dstChildren)
      (completedUpd (changedUpd (commitInsert s d i.dstIdx ref) d) i, true)

/-- Lines 1097-1124: the insert-to-start-of-list branch, entered when the ghost
is before the first child.  A first eligible child equal to the dragged element
is a no-op; otherwise, unless vetoed, the dragged element is inserted before
that first child. -/
def startInsertBranch (s : SortState) (i : DragOverInput) (d : Child) :
    SortState × Bool :=
  let dstChildren := s.containers.getD i.dstIdx []
  let firstChild := getChildAux dstChildren 0 true (some d)
  if firstChild = some d then (completedUpd s i, true)
  else
    match i.moveVector with
    | MoveVector.veto =>
      if d ∈ dstChildren then (completedUpd s i, true) else (s, false)
    | _ =>
      (completedUpd (changedUpd (commitInsert s d i.dstIdx firstChild) d) i, true)

/-- Lines 1125-1244: the mid-list swap branch, entered when the resolved target
is a child of the hovered container.  Hysteresis bookkeeping is reset on a
target change (lines 1141-1146), the spec-modelled resolver decides a
direction, the adjacency walk forces a no-op when the dragged element already
sits beside the target on the decided side (lines 1165-1182), and a surviving
non-vetoed decision commits the insertion with the 30 ms re-entrancy guard
(lines 1209-1221) and the target-move-distance update (lines 1235-1239). -/
def midSwapBranch (s : SortState) (i : DragOverInput) (d t : Child) :
    SortState × Bool :=
  let dstChildren := s.containers.getD i.dstIdx []
  let differentLevel := decide ((findNode s.containers d).map Prod.fst ≠ some i.dstIdx)
  let targetBeforeFirstSwap : Option ℚ :=
    if s.lastTarget = some t then none else some i.targetS1
  let pastFirst := if s.lastTarget = some t then s.pastFirstInvertThresh else false
  let isCirc := circInvertAt s i differentLevel t
  let s0 := { s with pastFirstInvertThresh := pastFirst,
                     isCircumstantialInvert := isCirc }
  let direction := swapDirectionAt s i differentLevel t
  let parentChildren := s.containers.getD s.parentIdx []
  let sibling :=
    if direction ≠ 0 then
      adjWalk parentChildren (indexInState s.containers d false) direction
        (parentChildren.length + 2)
    else none
  if direction = 0 ∨ sibling = some t then (completedUpd s0 i, true)
  else
    let s1 := { s0 with lastTarget := some t, lastDirection := some direction }
    let nextSibling := nextSiblingOf dstChildren t
    let after := decide (direction = 1)
    match i.moveVector with
    | MoveVector.veto =>
      if d ∈ dstChildren then (completedUpd s1 i, true) else (s1, false)
    | mv =>
      let after := match mv with
        | MoveVector.plusOne => true
        | MoveVector.minusOne => false
        | _ => after
      let s2 := { s1 with silent := true, silentTimerMs := some 30 }
      let ref : Option Child :=
        bif after && nextSibling.isNone then none
        else bif after then nextSibling else some t
      let s3 := commitInsert s2 d i.dstIdx ref
      let s4 :=
        match targetBeforeFirstSwap with
        | some tb =>
          if !isCirc then { s3 with targetMoveDistance := |tb - i.targetS1After| }
          else s3
        | none => s3
      (completedUpd (changedUpd s4 d) i, true)

/-- Lines 1246-1251: the fall-through tail of the handler — `completed(false)`
when the hovered container still contains the dragged element, else a plain
false return. -/
def dragOverFallthrough (s : SortState) (i : DragOverInput) (d : Child) :
    SortState × Bool :=
  if d ∈ s.containers.getD i.dstIdx [] then (completedUpd s i, true) else (s, false)

/-- The `_onDragOver` handler (Sortable.ts lines 891-1252).  The caller
`handleEvent` (line 1432) invokes it only while `dragEl` is set.  Returns the
updated module state together with the handler's boolean result
(`completed(...)` yields true; the silent gate and the final fall-through yield
false).  Scroll compensation (lines 1136-1139, 1224-1230) acts on scroll
collaborators and is not modelled; clone management is modelled separately by
`showCloneInsert`. -/
def onDragOver (s : SortState) (i : DragOverInput) : SortState × Bool :=
  match s.dragEl with
  | none => (s, false)
  | some d =>
    if s.silent then (s, false)
    else if i.eventCanceled then (s, false)
    else if i.earlySkip then (completedUpd s i, true)
    else if permissionOk s i then
      if revertCond s i then
        (completedUpd (commitInsert { s with parentIdx := s.rootIdx } d s.rootIdx s.nextEl) i,
          true)
      else
        let dstChildren := s.containers.getD i.dstIdx []
        let elLastChild := lastChildUtil dstChildren
        if elLastChild = none ∨ (i.ghostIsLast ∧ ¬(elLastChild.getD d).animated) then
          endInsertBranch s i d
        else if elLastChild.isSome ∧ i.ghostIsFirst then
          startInsertBranch s i d
        else
          match i.target with
          | some t =>
            if t ∈ dstChildren then midSwapBranch s i d t
            else dragOverFallthrough s i d
          | none => dragOverFallthrough s i d
    else (s, false)

/-- The container mutation of `_showClone` (Sortable.ts lines 1584-1611): under
clone-pull mode the hidden clone is re-inserted into the origin list — before
the dragged element when it is back in its origin list and `revertClone` is
unset, else before the captured `nextEl`, else appended. -/
def showCloneInsert (s : SortState) (d cloneEl : Child) (revertClone : Bool) :
    List (List Child) :=
  let ref : Option Child :=
    if ((findNode s.containers d).map Prod.fst = some s.rootIdx) ∧ ¬revertClone then some d
    else s.nextEl
  domInsert s.containers s.rootIdx cloneEl ref

/-- The slice of module state read or written by `_onTapStart` and
`_prepareDragStart` (Sortable.ts lines 317-520): the session fields assigned at
session creation, plus the `savedInputChecked` scratch list that is refreshed
before the active-session guard. -/
structure TapState where
  dragEl : Option Child
  oldIndex : Option Int
  oldDraggableIndex : Option Int
  lastDownEl : Option Child
  rootIdx : Option Nat
  nextEl : Option Child
  activeGroupSet : Bool
  savedInputChecked : List Nat
deriving DecidableEq, Repr

/-- The per-event inputs of `_onTapStart`: the event attributes and the results
of the option checks it performs (selector/filter/handle resolution acts on the
real DOM and enters as resolved values). -/
structure TapInput where
  cancelable : Bool
  isMouseOrPointerDown : Bool
  button : Nat
  disabled : Bool
  contentEditable : Bool
  safariSelectBlock : Bool
  inputsToSave : List Nat
  targetClosest : Option Child
  targetPrev : DomRef
  filterMatch : Bool
  handleOk : Bool
  elIdx : Nat
  targetParentIsEl : Bool
  targetNext : Option Child
deriving DecidableEq, Repr

/-- The `_onTapStart` handler (Sortable.ts lines 317-414) continued into
`_prepareDragStart` (lines 416-519).  Event subscription, timers and geometry
capture are I/O side effects on collaborators; the embedded result is the
module-state slice.  Note the ordering of the source: `_saveInputCheckedState`
(line 334) runs before the active-session guard (lines 337-339), and the
origin indices (lines 375-376) are recorded before the filter check. -/
def onTapStart (s : TapState) (i : TapInput) : TapState :=
  if !i.cancelable then s
  else
    let s1 := { s with savedInputChecked := i.inputsToSave }
    if s.dragEl.isSome then s1
    else if (i.isMouseOrPointerDown && decide (i.button ≠ 0)) || i.disabled then s1
    else if i.contentEditable then s1
    else if i.safariSelectBlock then s1
    else if (match i.targetClosest with | some t => t.animated | none => false) then s1
    else if s1.lastDownEl = i.targetClosest then s1
    else
      let s2 := { s1 with oldIndex := some (indexUtil i.targetPrev false),
                          oldDraggableIndex := some (indexUtil i.targetPrev true) }
      if i.filterMatch then s2
      else if !i.handleOk then s2
      else
        match i.targetClosest with
        | none => s2
        | some t =>
          if s2.dragEl = none ∧ i.targetParentIsEl then
            { s2 with dragEl := some t, rootIdx := some i.elIdx,
                      lastDownEl := some t, nextEl := i.targetNext,
                      activeGroupSet := true }
          else s2

/-- The slice of module state consumed by the `_onDrop` index reporting
(Sortable.ts lines 1280-1388). -/
structure DropState where
  dragEl : Option Child
  oldIndex : Option Int
  oldDraggableIndex : Option Int
  newIndex : Option Int
  newDraggableIndex : Option Int
deriving DecidableEq, Repr

/-- The per-event inputs of `_onDrop`: whether an event object was passed,
whether a plugin cancelled the event, whether `Sortable.active` is set, and the
dragged element's DOM reference at drop time (for the `index` calls). -/
structure DropInput where
  hasEvt : Bool
  eventCanceled : Bool
  activeSet : Bool
  dragRef : DomRef
deriving DecidableEq, Repr

/-- The final-index reporting of `_onDrop` (Sortable.ts lines 1280-1388): the
handler recomputes `newIndex`/`newDraggableIndex` from the dragged element
(lines 1293-1300) and, when an event was delivered with a live dragged element
and an active session, restores the origin indices whenever the recomputed
index is null or −1 (lines 1375-1384).  The returned pair is the value the
`save()` persistence step observes just before `_nulling`. -/
def onDropReported (s : DropState) (i : DropInput) : Option Int × Option Int :=
  let ni : Option Int := some (indexUtil i.dragRef false)
  let ndi : Option Int := some (indexUtil i.dragRef true)
  if i.eventCanceled then (ni, ndi)
  else if i.hasEvt ∧ s.dragEl.isSome ∧ i.activeSet then
    if ni = none ∨ ni = some (-1) then (s.oldIndex, s.oldDraggableIndex)
    else (ni, ndi)
  else (ni, ndi)

/-- The constructor argument: a value that may be absent and, when present,
carries a `nodeType`. -/
structure ElemArg where
  nodeType : Nat
deriving DecidableEq, Repr

/-- A constructed instance handle (the state assigned from line 178 onward). -/
structure SortableHandle where
  elNodeType : Nat
deriving DecidableEq, Repr

/-- The truthiness test of the constructor guard (line 172):
`el && el.nodeType && el.nodeType === 1`. -/
def elIsElement (el : Option ElemArg) : Bool :=
  match el with
  | none => false
  | some e => (decide (e.nodeType ≠ 0)) && (decide (e.nodeType = 1))

/-- The invalid-argument message thrown at lines 173-175. -/
def sortableConstructorError : String :=
  "Sortable: el must be an HTMLElement"

/-- The constructor guard (Sortable.ts lines 168-183): a missing `el`, or one
whose `nodeType` is not 1, throws the invalid-argument error before any
instance state is assigned; otherwise the instance is created. -/
def constructSortable (el : Option ElemArg) : Except String SortableHandle :=
  if elIsElement el then
    Except.ok { elNodeType := (el.map (fun e => e.nodeType)).getD 0 }
  else
    Except.error sortableConstructorError

/-- `toArray` (Sortable.ts lines 1448-1468): serialize the ids of the children
matching the draggable selector, in order. -/
def toArray (children : List Child) : List Nat :=
  (children.filter (fun c => c.draggable)).map (fun c => c.id)

/-- The `items` map built by `sort` (lines 1475-1481): the i-th serialized id
is keyed to `rootEl.children[i]` when that raw child matches the draggable
selector (note the source pairs the i-th id with the i-th raw child). -/
def sortItems (children : List Child) : List (Nat × Child) :=
  ((toArray children).zip children).filterMap
    (fun p => if p.2.draggable then some p else none)

/-- JS object lookup with assignment-overwrite semantics: the last binding of
an id wins. -/
def lookupItem (items : List (Nat × Child)) (id : Nat) : Option Child :=
  (items.reverse.find? (fun p => decide (p.1 = id))).map (fun p => p.2)

/-- One iteration of the `order.forEach` loop of `sort` (lines 1484-1489):
when the id is known, `removeChild` then `appendChild` the element (counted as
one node move). -/
def sortStep (items : List (Nat × Child)) (acc : List Child × Nat) (id : Nat) :
    List Child × Nat :=
  match lookupItem items id with
  | some el => (acc.1.erase el ++ [el], acc.2 + 1)
  | none => acc

/-- The `sort` operation (Sortable.ts lines 1470-1491), tracking the container
mutations: returns the resulting child order, the number of
removeChild/appendChild node moves performed, and whether an animation capture
was requested (`useAnimation && captureAnimationState()`, line 1483). -/
def sortOp (children : List Child) (order : List Nat) (useAnimation : Bool) :
    List Child × Nat × Bool :=
  let items := sortItems children
  let r := order.foldl (sortStep items) (children, 0)
  (r.1, r.2, useAnimation)

-- Supporting lemma: the index-counting loop counts exactly the accepted siblings.

theorem indexLoop_eq_countP (prev : List Child) (selector : Bool) :
    indexLoop prev selector = prev.countP (indexCounts selector) := by
  induction prev with
  | nil => simp [indexLoop]
  | cons c rest ih =>
    simp only [indexLoop, List.countP_cons, ih]
    cases h : indexCounts selector c <;> simp [h]
    omega

/-- C10: the public `index` utility returns −1 for a null element or one with
no parent node; otherwise it returns the number of preceding element siblings
that are not TEMPLATE nodes, not the active drag clone, and that match the
selector when one is given. -/
theorem index_utility_contract (el : DomRef) (selector : Bool) :
    (el.isNull = true ∨ el.hasParent = false → indexUtil el selector = -1) ∧
    (el.isNull = false → el.hasParent = true →
      indexUtil el selector = (el.prevSiblings.countP (indexCounts selector) : Int)) := by
  constructor
  · intro h
    unfold indexUtil
    rcases h with h | h <;> simp [h]
  · intro h1 h2
    simp [indexUtil, h1, h2, indexLoop_eq_countP]

/-- Closed instance of C10's theorem: a parentless reference yields −1. -/
theorem index_utility_contract_witness :
    indexUtil { isNull := false, hasParent := false, prevSiblings := [] } false = -1 :=
  (index_utility_contract { isNull := false, hasParent := false, prevSiblings := [] } false).1
    (Or.inr rfl)

/-- C9: constructing on a missing input, or one whose nodeType is not 1, fails
immediately with the invalid-argument error and no handle is created; a
nodeType-1 element constructs successfully — within the constructor guard this
is the only failure mode. -/
theorem constructor_validation (el : Option ElemArg) :
    ((el = none ∨ ∃ e, el = some e ∧ e.nodeType ≠ 1) →
      constructSortable el = Except.error sortableConstructorError) ∧
    ((∃ e, el = some e ∧ e.nodeType = 1) →
      constructSortable el = Except.ok { elNodeType := 1 }) := by
  constructor
  · rintro (h | ⟨e, he, hn⟩)
    · simp [constructSortable, elIsElement, h]
    · subst he
      simp [constructSortable, elIsElement, hn]
  · rintro ⟨e, he, hn⟩
    subst he
    simp [constructSortable, elIsElement, hn]

/-- Closed instance of C9's theorem: a missing element throws, a nodeType-1
element constructs. -/
theorem constructor_validation_witness :
    constructSortable none = Except.error sortableConstructorError ∧
    constructSortable (some { nodeType := 1 }) = Except.ok { elNodeType := 1 } :=
  ⟨(constructor_validation none).1 (Or.inl rfl),
   (constructor_validation (some { nodeType := 1 })).2 ⟨{ nodeType := 1 }, rfl, rfl⟩⟩

/-- C7: at drop time, with an event delivered, a live dragged element and an
active session, if the recomputed final index is −1 (or absent) the reported
final index and final draggable-index are the origin index and origin
draggable-index recorded at session start. -/
theorem drop_restores_origin_index (s : DropState) (i : DropInput) (d : Child)
    (hd : s.dragEl = some d) (hevt : i.hasEvt = true) (hact : i.activeSet = true)
    (hec : i.eventCanceled = false) (hidx : indexUtil i.dragRef false = -1) :
    onDropReported s i = (s.oldIndex, s.oldDraggableIndex) := by
  simp [onDropReported, hd, hevt, hact, hec, hidx]

/-- Closed instance of C7's theorem: a dragged element detached from any parent
reports the origin indices. -/
theorem drop_restores_origin_index_witness :
    onDropReported
      { dragEl := some { id := 7 }, oldIndex := some 2, oldDraggableIndex := some 1,
        newIndex := none, newDraggableIndex := none }
      { hasEvt := true, eventCanceled := false, activeSet := true,
        dragRef := { isNull := false, hasParent := false, prevSiblings := [] } }
      = (some 2, some 1) :=
  drop_restores_origin_index _ _ { id := 7 } rfl rfl rfl rfl (by decide)

/-- C2: a pointer-down arriving while a drag session is active (the dragged
element reference is set) leaves every session field untouched and creates no
second session — only the pre-guard `savedInputChecked` scratch refresh of line
334 runs before the guard returns. -/
theorem tapstart_ignored_while_active (s : TapState) (i : TapInput) (d : Child)
    (hd : s.dragEl = some d) :
    (onTapStart s i).dragEl = some d ∧
    (onTapStart s i).oldIndex = s.oldIndex ∧
    (onTapStart s i).oldDraggableIndex = s.oldDraggableIndex ∧
    (onTapStart s i).lastDownEl = s.lastDownEl ∧
    (onTapStart s i).rootIdx = s.rootIdx ∧
    (onTapStart s i).nextEl = s.nextEl ∧
    (onTapStart s i).activeGroupSet = s.activeGroupSet := by
  unfold onTapStart
  cases hc : i.cancelable <;> simp [hd]

/-- Closed instance of C2's theorem: with a session active, pointer-down
leaves the dragged-element reference unchanged. -/
theorem tapstart_ignored_while_active_witness :
    (onTapStart
      { dragEl := some { id := 1 }, oldIndex := some 0, oldDraggableIndex := some 0,
        lastDownEl := none, rootIdx := some 0, nextEl := none, activeGroupSet := true,
        savedInputChecked := [] }
      { cancelable := true, isMouseOrPointerDown := true, button := 0, disabled := false,
        contentEditable := false, safariSelectBlock := false, inputsToSave := [5],
        targetClosest := some { id := 2 },
        targetPrev := { isNull := false, hasParent := true, prevSiblings := [] },
        filterMatch := false, handleOk := true, elIdx := 0, targetParentIsEl := true,
        targetNext := none }).dragEl = some { id := 1 } :=
  (tapstart_ignored_while_active _ _ { id := 1 } rfl).1

/-- C3: for a mid-list swap evaluation, the decided direction is +1 exactly
when the pointer's fractional position across the target's span along the
orientation axis exceeds `0.5 + threshold/2`, −1 exactly when it is below
`0.5 − threshold/2`, and 0 otherwise, where the effective threshold is 1 when
the pair does not share a row/column and the configured `swapThreshold`
otherwise, and is replaced by the inverted threshold when the invert condition
holds. -/
theorem swap_direction_contract (mouse s1 len swapThr invThr : ℚ)
    (differentRowCol invert : Bool) (hL : 0 < len) (hs : 0 ≤ swapThr)
    (hi : 0 ≤ invThr) :
    (getSwapDirection mouse s1 len (effectiveSwapThreshold differentRowCol swapThr)
        invThr invert = 1 ↔
      (mouse - s1) / len >
        1/2 + (if invert then invThr
               else effectiveSwapThreshold differentRowCol swapThr)/2) ∧
    (getSwapDirection mouse s1 len (effectiveSwapThreshold differentRowCol swapThr)
        invThr invert = -1 ↔
      (mouse - s1) / len <
        1/2 - (if invert then invThr
               else effectiveSwapThreshold differentRowCol swapThr)/2) ∧
    (getSwapDirection mouse s1 len (effectiveSwapThreshold differentRowCol swapThr)
        invThr invert = 0 ↔
      (1/2 - (if invert then invThr
              else effectiveSwapThreshold differentRowCol swapThr)/2 ≤
          (mouse - s1) / len ∧
        (mouse - s1) / len ≤
          1/2 + (if invert then invThr
                 else effectiveSwapThreshold differentRowCol swapThr)/2)) := by
  have hT : (0:ℚ) ≤ (if invert then invThr
      else effectiveSwapThreshold differentRowCol swapThr) := by
    cases invert
    · simp only [Bool.false_eq_true, if_false]
      unfold effectiveSwapThreshold
      cases differentRowCol
      · simpa using hs
      · norm_num
    · simpa using hi
  have e1 : (mouse > s1 + len * (1/2 + (if invert then invThr
      else effectiveSwapThreshold differentRowCol swapThr)/2)) ↔
      ((mouse - s1) / len > 1/2 + (if invert then invThr
        else effectiveSwapThreshold differentRowCol swapThr)/2) := by
    rw [gt_iff_lt, gt_iff_lt, lt_div_iff₀ hL, mul_comm]
    constructor <;> intro h <;> linarith
  have e2 : (mouse < s1 + len * (1/2 - (if invert then invThr
      else effectiveSwapThreshold differentRowCol swapThr)/2)) ↔
      ((mouse - s1) / len < 1/2 - (if invert then invThr
        else effectiveSwapThreshold differentRowCol swapThr)/2) := by
    rw [div_lt_iff₀ hL, mul_comm]
    constructor <;> intro h <;> linarith
  by_cases h1 : mouse > s1 + len * (1/2 + (if invert then invThr
      else effectiveSwapThreshold differentRowCol swapThr)/2)
  · have hval : getSwapDirection mouse s1 len
        (effectiveSwapThreshold differentRowCol swapThr) invThr invert = 1 := by
      simp only [getSwapDirection]
      rw [if_pos h1]
    have hf : (mouse - s1) / len > 1/2 + (if invert then invThr
        else effectiveSwapThreshold differentRowCol swapThr)/2 := e1.mp h1
    refine ⟨iff_of_true hval hf, iff_of_false (by simp [hval]) ?_,
      iff_of_false (by simp [hval]) ?_⟩
    · intro hlt
      linarith
    · rintro ⟨ha, hb⟩
      linarith
  · by_cases h2 : mouse < s1 + len * (1/2 - (if invert then invThr
        else effectiveSwapThreshold differentRowCol swapThr)/2)
    · have hval : getSwapDirection mouse s1 len
          (effectiveSwapThreshold differentRowCol swapThr) invThr invert = -1 := by
        simp only [getSwapDirection]
        rw [if_neg h1, if_pos h2]
      have hf2 : (mouse - s1) / len < 1/2 - (if invert then invThr
          else effectiveSwapThreshold differentRowCol swapThr)/2 := e2.mp h2
      refine ⟨iff_of_false (by simp [hval]) ?_, iff_of_true hval hf2,
        iff_of_false (by simp [hval]) ?_⟩
      · intro hgt
        linarith
      · rintro ⟨ha, hb⟩
        linarith
    · have hval : getSwapDirection mouse s1 len
          (effectiveSwapThreshold differentRowCol swapThr) invThr invert = 0 := by
        simp only [getSwapDirection]
        rw [if_neg h1, if_neg h2]
      have h1' : ¬((mouse - s1) / len > 1/2 + (if invert then invThr
          else effectiveSwapThreshold differentRowCol swapThr)/2) :=
        fun hgt => h1 (e1.mpr hgt)
      have h2' : ¬((mouse - s1) / len < 1/2 - (if invert then invThr
          else effectiveSwapThreshold differentRowCol swapThr)/2) :=
        fun hlt => h2 (e2.mpr hlt)
      exact ⟨iff_of_false (by simp [hval]) h1',
        iff_of_false (by simp [hval]) h2',
        iff_of_true hval ⟨le_of_not_lt h2', le_of_not_lt h1'⟩⟩

/-- Closed instance of C3's theorem: pointer at 90% of a span of 10 with
threshold 1/2 decides +1. -/
theorem swap_direction_contract_witness :
    getSwapDirection 9 0 10 (effectiveSwapThreshold false (1/2)) (1/2) false = 1 :=
  ((swap_direction_contract 9 0 10 (1/2) (1/2) false false (by norm_num)
      (by norm_num) (by norm_num)).1).mpr
    (by norm_num [effectiveSwapThreshold])

-- Supporting lemmas for the `sort` operation.

theorem sortItems_all_draggable (children : List Child)
    (h : ∀ c ∈ children, c.draggable = true) :
    sortItems children = children.map (fun c => (c.id, c)) := by
  induction children with
  | nil => rfl
  | cons c rest ih =>
    have hc : c.draggable = true := h c (by simp)
    have hrest : ∀ x ∈ rest, x.draggable = true := fun x hx => h x (by simp [hx])
    simp only [sortItems, toArray, List.filter_cons, hc, List.map_cons, List.zip_cons_cons,
      List.filterMap_cons, List.map]
    simp only [hc, if_true, if_pos]
    have := ih hrest
    simp only [sortItems, toArray] at this
    simp [this]

theorem find_mapped_pairs (l : List Child) (c : Child)
    (hnd : (l.map (fun x => x.id)).Nodup) (hc : c ∈ l) :
    (l.map (fun x => (x.id, x))).find? (fun p => decide (p.1 = c.id)) =
      some (c.id, c) := by
  induction l with
  | nil => simp at hc
  | cons x rest ih =>
    simp only [List.map_cons, List.nodup_cons] at hnd
    rcases List.mem_cons.mp hc with hx | hmem
    · subst hx
      simp [List.find?]
    · have hne : x.id ≠ c.id := by
        intro he
        exact hnd.1 (he ▸ (List.mem_map.mpr ⟨c, hmem, rfl⟩))
      have hdec : (decide (x.id = c.id)) = false := decide_eq_false hne
      simp only [List.find?, hdec]
      exact ih hnd.2 hmem

theorem lookupItem_mapped (l : List Child) (c : Child)
    (hnd : (l.map (fun x => x.id)).Nodup) (hc : c ∈ l) :
    lookupItem (l.map (fun x => (x.id, x))) c.id = some c := by
  unfold lookupItem
  rw [← List.map_reverse]
  rw [find_mapped_pairs l.reverse c
    (by rw [List.map_reverse]; exact List.nodup_reverse.mpr hnd)
    (List.mem_reverse.mpr hc)]
  rfl

theorem sortFold_rotate (items : List (Nat × Child)) (suf : List Child) :
    ∀ (pre : List Child) (n : Nat),
    (∀ c ∈ suf, lookupItem items c.id = some c) →
    (suf.map (fun c => c.id)).foldl (sortStep items) (suf ++ pre, n) =
      (pre ++ suf, n + suf.length) := by
  induction suf with
  | nil => intro pre n _; simp
  | cons c rest ih =>
    intro pre n hlk
    have hc : lookupItem items c.id = some c := hlk c (by simp)
    simp only [List.map_cons, List.foldl_cons]
    have hstep : sortStep items (c :: rest ++ pre, n) c.id =
        (rest ++ (pre ++ [c]), n + 1) := by
      simp [sortStep, hc, List.erase_cons_head]
    rw [hstep]
    have := ih (pre ++ [c]) (n + 1) (fun x hx => hlk x (by simp [hx]))
    rw [List.append_assoc] at this
    rw [this]
    simp only [List.singleton_append, List.length_cons, Prod.mk.injEq]
    exact ⟨trivial, by omega⟩

/-- The current order of a fully draggable container with distinct ids: a
concrete three-child list. -/
def sortDemoChildren : List Child :=
  [{ id := 1 }, { id := 2 }, { id := 3 }]

/-- Counterexample to C5 as stated: applying the container's own serialized
order (`toArray`) performs one removeChild/appendChild node move per matched
child — three moves here, not zero. -/
theorem sort_identical_order_moves_nonzero :
    toArray sortDemoChildren = [1, 2, 3] ∧
    (sortOp sortDemoChildren [1, 2, 3] false).2.1 ≠ 0 := by
  constructor
  · decide
  · decide

/-- C5 as amended: applying an order equal to the container's current
serialized order leaves the child order unchanged and requests an animation
capture exactly when the `useAnimation` flag is passed, but it does so by
removing and re-appending each matched child — one node move per child, not
zero. -/
theorem sort_identical_order_idempotent (children : List Child) (u : Bool)
    (hdr : ∀ c ∈ children, c.draggable = true)
    (hnd : (children.map (fun c => c.id)).Nodup) :
    (sortOp children (toArray children) u).1 = children ∧
    (sortOp children (toArray children) u).2.2 = u ∧
    (sortOp children (toArray children) u).2.1 = children.length := by
  have hta : toArray children = children.map (fun c => c.id) := by
    unfold toArray
    rw [List.filter_eq_self.mpr (by intro c hc; simpa using hdr c hc)]
  have hitems : sortItems children = children.map (fun c => (c.id, c)) :=
    sortItems_all_draggable children hdr
  have hlk : ∀ c ∈ children,
      lookupItem (sortItems children) c.id = some c := by
    intro c hc
    rw [hitems]
    exact lookupItem_mapped children c hnd hc
  have hfold := sortFold_rotate (sortItems children) children [] 0 hlk
  simp only [List.append_nil, List.nil_append] at hfold
  simp only [sortOp]
  rw [hta, hfold]
  simp

/-- Closed instance of the amended C5 theorem at the demo container. -/
theorem sort_identical_order_idempotent_witness :
    (sortOp sortDemoChildren (toArray sortDemoChildren) true).1 = sortDemoChildren ∧
    (sortOp sortDemoChildren (toArray sortDemoChildren) true).2.2 = true ∧
    (sortOp sortDemoChildren (toArray sortDemoChildren) true).2.1 = 3 :=
  sort_identical_order_idempotent sortDemoChildren true (by decide) (by decide)

-- Projection lemmas for the dragover state transformers.

theorem completedUpd_containers (s : SortState) (i : DragOverInput) :
    (completedUpd s i).containers = s.containers := by
  unfold completedUpd
  split <;> rfl

theorem completedUpd_dragEl (s : SortState) (i : DragOverInput) :
    (completedUpd s i).dragEl = s.dragEl := by
  unfold completedUpd
  split <;> rfl

theorem completedUpd_silent (s : SortState) (i : DragOverInput) :
    (completedUpd s i).silent = s.silent := by
  unfold completedUpd
  split <;> rfl

theorem completedUpd_silentTimerMs (s : SortState) (i : DragOverInput) :
    (completedUpd s i).silentTimerMs = s.silentTimerMs := by
  unfold completedUpd
  split <;> rfl

theorem completedUpd_lastDirection (s : SortState) (i : DragOverInput) :
    (completedUpd s i).lastDirection = s.lastDirection := by
  unfold completedUpd
  split <;> rfl

theorem changedUpd_containers (s : SortState) (d : Child) :
    (changedUpd s d).containers = s.containers := rfl

theorem changedUpd_dragEl (s : SortState) (d : Child) :
    (changedUpd s d).dragEl = s.dragEl := rfl

theorem changedUpd_silent (s : SortState) (d : Child) :
    (changedUpd s d).silent = s.silent := rfl

theorem changedUpd_silentTimerMs (s : SortState) (d : Child) :
    (changedUpd s d).silentTimerMs = s.silentTimerMs := rfl

theorem commitInsert_containers (s : SortState) (d : Child) (dst : Nat)
    (ref : Option Child) :
    (commitInsert s d dst ref).containers = domInsert s.containers dst d ref := rfl

theorem dragOverFallthrough_containers (s : SortState) (i : DragOverInput)
    (d : Child) : (dragOverFallthrough s i d).1.containers = s.containers := by
  unfold dragOverFallthrough
  split
  · exact completedUpd_containers s i
  · rfl

theorem endInsertBranch_conserves (s : SortState) (i : DragOverInput) (d : Child)
    (hcount : s.containers.flatten.count d = 1)
    (hdst : i.dstIdx < s.containers.length) :
    ((endInsertBranch s i d).1.containers.flatten).Perm s.containers.flatten := by
  dsimp only [endInsertBranch]
  repeat' split
  all_goals try dsimp only
  all_goals try simp only [completedUpd_containers]
  all_goals try dsimp only [commitInsert, changedUpd]
  all_goals
    first
    | exact List.Perm.refl _
    | exact domInsert_perm _ _ _ _ hcount hdst

theorem startInsertBranch_conserves (s : SortState) (i : DragOverInput) (d : Child)
    (hcount : s.containers.flatten.count d = 1)
    (hdst : i.dstIdx < s.containers.length) :
    ((startInsertBranch s i d).1.containers.flatten).Perm s.containers.flatten := by
  dsimp only [startInsertBranch]
  repeat' split
  all_goals try dsimp only
  all_goals try simp only [completedUpd_containers]
  all_goals try dsimp only [commitInsert, changedUpd]
  all_goals
    first
    | exact List.Perm.refl _
    | exact domInsert_perm _ _ _ _ hcount hdst

theorem midSwapBranch_conserves (s : SortState) (i : DragOverInput) (d t : Child)
    (hcount : s.containers.flatten.count d = 1)
    (hdst : i.dstIdx < s.containers.length) :
    ((midSwapBranch s i d t).1.containers.flatten).Perm s.containers.flatten := by
  dsimp only [midSwapBranch]
  repeat' split
  all_goals try dsimp only
  all_goals try simp only [completedUpd_containers]
  all_goals try dsimp only [commitInsert, changedUpd]
  all_goals
    first
    | exact List.Perm.refl _
    | exact domInsert_perm _ _ _ _ hcount hdst

/-- C1: every placement performed by the dragover handler — revert,
end-of-list insert, start-of-list insert, or mid-list swap — preserves the
multiset of children across all containers: the dragged element (unique in the
forest) is relocated by a single remove-and-insert, never duplicated or
dropped; and the clone-pull re-insertion of `_showClone` adds exactly one
duplicate (the clone) to the forest. -/
theorem dragover_conserves_items (s : SortState) (i : DragOverInput) (d : Child)
    (hd : s.dragEl = some d) (hcount : s.containers.flatten.count d = 1)
    (hdst : i.dstIdx < s.containers.length) (hroot : s.rootIdx < s.containers.length)
    (cloneEl : Child) (hclone : cloneEl ∉ s.containers.flatten) (rc : Bool) :
    ((onDragOver s i).1.containers.flatten : Multiset Child) =
      (s.containers.flatten : Multiset Child) ∧
    ((showCloneInsert s d cloneEl rc).flatten : Multiset Child) =
      cloneEl ::ₘ (s.containers.flatten : Multiset Child) := by
  constructor
  · apply Multiset.coe_eq_coe.mpr
    obtain ⟨cs, de, ri, pi, ne, sil, stm, lt, ld, pf, ic, tmd, ni, ndi⟩ := s
    dsimp only at hd hcount hdst hroot ⊢
    subst hd
    dsimp only [onDragOver]
    repeat' split
    all_goals try dsimp only
    all_goals try simp only [completedUpd_containers]
    all_goals try dsimp only [commitInsert, changedUpd]
    all_goals
      first
      | exact List.Perm.refl _
      | exact domInsert_perm _ _ _ _ hcount hdst
      | exact domInsert_perm _ _ _ _ hcount hroot
      | exact endInsertBranch_conserves _ _ _ hcount hdst
      | exact startInsertBranch_conserves _ _ _ hcount hdst
      | exact midSwapBranch_conserves _ _ _ _ hcount hdst
      | rw [dragOverFallthrough_containers]
  · have : cloneEl ::ₘ (s.containers.flatten : Multiset Child) =
        ((cloneEl :: s.containers.flatten : List Child) : Multiset Child) := rfl
    rw [this]
    apply Multiset.coe_eq_coe.mpr
    unfold showCloneInsert
    exact domInsert_fresh_perm _ _ _ _ (List.count_eq_zero.mpr hclone) hroot

/-- A two-child container with the first child being dragged. -/
def demoDrag : Child := { id := 1 }

/-- The sibling of the demo dragged child. -/
def demoOther : Child := { id := 2 }

/-- A node present in no container, standing for the hidden clone. -/
def demoClone : Child := { id := 9, isClone := true }

/-- Demo module state: one registered container holding the dragged child and
one sibling, session active. -/
def demoState : SortState :=
  { containers := [[demoDrag, demoOther]], dragEl := some demoDrag, rootIdx := 0,
    parentIdx := 0, nextEl := none, silent := false, silentTimerMs := none,
    lastTarget := none, lastDirection := none, pastFirstInvertThresh := false,
    isCircumstantialInvert := false, targetMoveDistance := 0, newIndex := none,
    newDraggableIndex := none }

/-- Demo dragover input driving the end-of-list insert branch to a commit. -/
def demoEndInput : DragOverInput :=
  { dstIdx := 0, activeSortable := true, disabled := false, isOwner := true,
    canSort := true, putSortableIsThis := false, checkPull := false,
    checkPut := false, eventCanceled := false, earlySkip := false,
    completedNullsLastTarget := false, ghostIsLast := true, ghostIsFirst := false,
    target := none, mouseOnAxis := 0, targetS1 := 0, targetLength := 1,
    targetS1After := 0, differentRowCol := false, swapThreshold := 1,
    invertedSwapThreshold := none, invertSwap := false,
    moveVector := MoveVector.pass }

/-- Closed instance of C1's theorem at the demo end-of-list commit. -/
theorem dragover_conserves_items_witness :
    demoState.containers.flatten.count demoDrag = 1 ∧
    ((onDragOver demoState demoEndInput).1.containers.flatten : Multiset Child) =
      (demoState.containers.flatten : Multiset Child) :=
  ⟨by decide,
   (dragover_conserves_items demoState demoEndInput demoDrag rfl (by decide)
      (by decide) (by decide) demoClone (by decide) false).1⟩

-- Per-branch no-mutation lemmas for a vetoing `onMove` hook.

theorem endInsertBranch_veto (s : SortState) (i : DragOverInput) (d : Child)
    (hveto : i.moveVector = MoveVector.veto) :
    (endInsertBranch s i d).1.containers = s.containers ∧
    (endInsertBranch s i d).1.dragEl = s.dragEl ∧
    (endInsertBranch s i d).1.silent = s.silent := by
  refine ⟨?_, ?_, ?_⟩ <;>
    (dsimp only [endInsertBranch]
     simp only [hveto]
     repeat' split
     all_goals
       first
       | exact completedUpd_containers _ _
       | exact completedUpd_dragEl _ _
       | exact completedUpd_silent _ _
       | rfl)

theorem startInsertBranch_veto (s : SortState) (i : DragOverInput) (d : Child)
    (hveto : i.moveVector = MoveVector.veto) :
    (startInsertBranch s i d).1.containers = s.containers ∧
    (startInsertBranch s i d).1.dragEl = s.dragEl ∧
    (startInsertBranch s i d).1.silent = s.silent := by
  refine ⟨?_, ?_, ?_⟩ <;>
    (dsimp only [startInsertBranch]
     simp only [hveto]
     repeat' split
     all_goals
       first
       | exact completedUpd_containers _ _
       | exact completedUpd_dragEl _ _
       | exact completedUpd_silent _ _
       | rfl)

theorem midSwapBranch_veto (s : SortState) (i : DragOverInput) (d t : Child)
    (hveto : i.moveVector = MoveVector.veto) :
    (midSwapBranch s i d t).1.containers = s.containers ∧
    (midSwapBranch s i d t).1.dragEl = s.dragEl ∧
    (midSwapBranch s i d t).1.silent = s.silent := by
  refine ⟨?_, ?_, ?_⟩ <;>
    (dsimp only [midSwapBranch]
     simp only [hveto]
     repeat' split
     all_goals try dsimp only
     all_goals
       first
       | exact completedUpd_containers _ _
       | exact completedUpd_dragEl _ _
       | exact completedUpd_silent _ _)

theorem dragOverFallthrough_dragEl (s : SortState) (i : DragOverInput)
    (d : Child) : (dragOverFallthrough s i d).1.dragEl = s.dragEl := by
  unfold dragOverFallthrough
  split
  · exact completedUpd_dragEl s i
  · rfl

theorem dragOverFallthrough_silent (s : SortState) (i : DragOverInput)
    (d : Child) : (dragOverFallthrough s i d).1.silent = s.silent := by
  unfold dragOverFallthrough
  split
  · exact completedUpd_silent s i
  · rfl

/-- C4: when the `onMove` move-veto hook answers false for a proposed
placement, no container is mutated by that dragover evaluation, the decision is
discarded, and the session stays in the Dragging state (the dragged-element
reference survives; the re-entrancy guard is not set). -/
theorem move_veto_no_mutation (s : SortState) (i : DragOverInput) (d : Child)
    (hd : s.dragEl = some d) (hveto : i.moveVector = MoveVector.veto)
    (hrev : revertCond s i = false) :
    (onDragOver s i).1.containers = s.containers ∧
    (onDragOver s i).1.dragEl = some d ∧
    (onDragOver s i).1.silent = s.silent := by
  obtain ⟨cs, de, ri, pi, ne, sil, stm, lt, ld, pf, ic, tmd, ni, ndi⟩ := s
  dsimp only at hd hrev ⊢
  subst hd
  refine ⟨?_, ?_, ?_⟩ <;>
    (dsimp only [onDragOver]
     simp only [hrev, Bool.false_eq_true, if_false]
     repeat' split
     all_goals
       first
       | rfl
       | exact completedUpd_containers _ _
       | exact completedUpd_dragEl _ _
       | exact completedUpd_silent _ _
       | exact (endInsertBranch_veto _ _ _ hveto).1
       | exact (endInsertBranch_veto _ _ _ hveto).2.1
       | exact (endInsertBranch_veto _ _ _ hveto).2.2
       | exact (startInsertBranch_veto _ _ _ hveto).1
       | exact (startInsertBranch_veto _ _ _ hveto).2.1
       | exact (startInsertBranch_veto _ _ _ hveto).2.2
       | exact (midSwapBranch_veto _ _ _ _ hveto).1
       | exact (midSwapBranch_veto _ _ _ _ hveto).2.1
       | exact (midSwapBranch_veto _ _ _ _ hveto).2.2
       | exact dragOverFallthrough_containers _ _ _
       | exact dragOverFallthrough_dragEl _ _ _
       | exact dragOverFallthrough_silent _ _ _)

/-- Demo dragover input whose `onMove` hook vetoes the end-of-list insert. -/
def demoVetoInput : DragOverInput :=
  { demoEndInput with moveVector := MoveVector.veto }

/-- Closed instance of C4's theorem at the vetoed demo placement. -/
theorem move_veto_no_mutation_witness :
    (onDragOver demoState demoVetoInput).1.containers = demoState.containers :=
  (move_veto_no_mutation demoState demoVetoInput demoDrag rfl rfl (by decide)).1

/-- C6: in a mid-list swap evaluation that computed a non-zero direction, if
the sibling walk from the dragged element's index in the decided direction
(skipping hidden elements and the ghost) lands on the target — the dragged
element is already adjacent on the decided side — the decision is forced to a
no-op: the evaluation completes without inserting, no container changes, the
guard stays untouched and the decision is not recorded as `lastDirection`. -/
theorem midswap_adjacent_noop (s : SortState) (i : DragOverInput) (d t : Child)
    (hdir : swapDirectionAt s i
        (decide ((findNode s.containers d).map Prod.fst ≠ some i.dstIdx)) t ≠ 0)
    (hwalk : adjWalk (s.containers.getD s.parentIdx [])
        (indexInState s.containers d false)
        (swapDirectionAt s i
          (decide ((findNode s.containers d).map Prod.fst ≠ some i.dstIdx)) t)
        ((s.containers.getD s.parentIdx []).length + 2) = some t) :
    (midSwapBranch s i d t).1.containers = s.containers ∧
    (midSwapBranch s i d t).2 = true ∧
    (midSwapBranch s i d t).1.silent = s.silent ∧
    (midSwapBranch s i d t).1.lastDirection = s.lastDirection := by
  have hcond : swapDirectionAt s i
      (decide ((findNode s.containers d).map Prod.fst ≠ some i.dstIdx)) t = 0 ∨
      (if swapDirectionAt s i
          (decide ((findNode s.containers d).map Prod.fst ≠ some i.dstIdx)) t ≠ 0 then
        adjWalk (s.containers.getD s.parentIdx [])
          (indexInState s.containers d false)
          (swapDirectionAt s i
            (decide ((findNode s.containers d).map Prod.fst ≠ some i.dstIdx)) t)
          ((s.containers.getD s.parentIdx []).length + 2)
      else none) = some t :=
    Or.inr (by rw [if_pos hdir]; exact hwalk)
  dsimp only [midSwapBranch]
  rw [if_pos hcond]
  exact ⟨completedUpd_containers _ _, rfl, completedUpd_silent _ _,
    completedUpd_lastDirection _ _⟩

/-- A third demo child sitting between target and dragged element. -/
def demoBetween : Child := { id := 3 }

/-- Demo state where the dragged element is directly after the target. -/
def demoMidState : SortState :=
  { containers := [[demoOther, demoDrag]], dragEl := some demoDrag, rootIdx := 0,
    parentIdx := 0, nextEl := none, silent := false, silentTimerMs := none,
    lastTarget := none, lastDirection := none, pastFirstInvertThresh := false,
    isCircumstantialInvert := false, targetMoveDistance := 0, newIndex := none,
    newDraggableIndex := none }

/-- Demo dragover input hovering the target at 95% of its span with a zero
swap threshold, so the resolver decides +1. -/
def demoMidInput : DragOverInput :=
  { dstIdx := 0, activeSortable := true, disabled := false, isOwner := true,
    canSort := true, putSortableIsThis := false, checkPull := false,
    checkPut := false, eventCanceled := false, earlySkip := false,
    completedNullsLastTarget := false, ghostIsLast := false, ghostIsFirst := false,
    target := some demoOther, mouseOnAxis := 95, targetS1 := 0, targetLength := 100,
    targetS1After := 0, differentRowCol := false, swapThreshold := 0,
    invertedSwapThreshold := none, invertSwap := false,
    moveVector := MoveVector.pass }

-- Evaluation lemmas for the demo geometry (rational comparisons are not
-- kernel-decidable, so the resolver value is computed by norm_num).

theorem demoMid_circ_false :
    circInvertAt demoMidState demoMidInput
      (decide ((findNode demoMidState.containers demoDrag).map Prod.fst ≠
        some demoMidInput.dstIdx)) demoOther = false := by
  decide

theorem demoMid_dir_one :
    swapDirectionAt demoMidState demoMidInput
      (decide ((findNode demoMidState.containers demoDrag).map Prod.fst ≠
        some demoMidInput.dstIdx)) demoOther = 1 := by
  unfold swapDirectionAt
  rw [demoMid_circ_false]
  norm_num [demoMidInput, getSwapDirection, effectiveSwapThreshold]

theorem demoMid_walk_eq :
    adjWalk (demoMidState.containers.getD demoMidState.parentIdx [])
      (indexInState demoMidState.containers demoDrag false)
      (swapDirectionAt demoMidState demoMidInput
        (decide ((findNode demoMidState.containers demoDrag).map Prod.fst ≠
          some demoMidInput.dstIdx)) demoOther)
      ((demoMidState.containers.getD demoMidState.parentIdx []).length + 2) =
      some demoOther := by
  rw [demoMid_dir_one]
  decide

/-- Closed instance of C6's theorem: direction +1 with the dragged element
already after the target is a no-op. -/
theorem midswap_adjacent_noop_witness :
    (midSwapBranch demoMidState demoMidInput demoDrag demoOther).1.containers =
      demoMidState.containers ∧
    (midSwapBranch demoMidState demoMidInput demoDrag demoOther).2 = true := by
  have h := midswap_adjacent_noop demoMidState demoMidInput demoDrag demoOther
    (by rw [demoMid_dir_one]; decide) demoMid_walk_eq
  exact ⟨h.1, h.2.1⟩

/-- C8 (amended): the ≈30 ms re-entrancy guard is set when a mid-list swap
placement commits (lines 1209-1210) — end-of-list and start-of-list inserts do
not set it — and while the guard is active every dragover invocation returns
immediately with the state untouched, so no placement is evaluated or
performed. -/
theorem silent_guard_mid_swap (s : SortState) (i : DragOverInput) (d t : Child)
    (hnv : i.moveVector ≠ MoveVector.veto)
    (hdir : swapDirectionAt s i
        (decide ((findNode s.containers d).map Prod.fst ≠ some i.dstIdx)) t ≠ 0)
    (hsib : adjWalk (s.containers.getD s.parentIdx [])
        (indexInState s.containers d false)
        (swapDirectionAt s i
          (decide ((findNode s.containers d).map Prod.fst ≠ some i.dstIdx)) t)
        ((s.containers.getD s.parentIdx []).length + 2) ≠ some t) :
    (∀ (s' : SortState) (i' : DragOverInput), s'.silent = true →
        onDragOver s' i' = (s', false)) ∧
    (midSwapBranch s i d t).1.silent = true ∧
    (midSwapBranch s i d t).1.silentTimerMs = some 30 := by
  have hcond : ¬(swapDirectionAt s i
      (decide ((findNode s.containers d).map Prod.fst ≠ some i.dstIdx)) t = 0 ∨
      (if swapDirectionAt s i
          (decide ((findNode s.containers d).map Prod.fst ≠ some i.dstIdx)) t ≠ 0 then
        adjWalk (s.containers.getD s.parentIdx [])
          (indexInState s.containers d false)
          (swapDirectionAt s i
            (decide ((findNode s.containers d).map Prod.fst ≠ some i.dstIdx)) t)
          ((s.containers.getD s.parentIdx []).length + 2)
      else none) = some t) := by
    rintro (h | h)
    · exact hdir h
    · rw [if_pos hdir] at h
      exact hsib h
  refine ⟨?_, ?_, ?_⟩
  · intro s' i' hs
    rcases hde : s'.dragEl with _ | d'
    · simp only [onDragOver, hde]
    · simp only [onDragOver, hde, hs, if_true]
  · dsimp only [midSwapBranch]
    rw [if_neg hcond]
    cases hmv : i.moveVector
    case veto => exact absurd hmv hnv
    all_goals
      simp only [hmv]
      rw [completedUpd_silent, changedUpd_silent]
      repeat' split
      all_goals rfl
  · dsimp only [midSwapBranch]
    rw [if_neg hcond]
    cases hmv : i.moveVector
    case veto => exact absurd hmv hnv
    all_goals
      simp only [hmv]
      rw [completedUpd_silentTimerMs, changedUpd_silentTimerMs]
      repeat' split
      all_goals rfl

/-- Counterexample to C8 as stated: a committed end-of-list placement mutates
the container order yet leaves the re-entrancy guard unset with no timer. -/
theorem silent_guard_counterexample :
    (onDragOver demoState demoEndInput).1.containers ≠ demoState.containers ∧
    (onDragOver demoState demoEndInput).1.silent = false ∧
    (onDragOver demoState demoEndInput).1.silentTimerMs = none := by
  exact ⟨by decide, by decide, by decide⟩

/-- Demo state with a child between target and dragged element, so the
adjacency walk does not land on the target and the mid-swap commits. -/
def demoMidCommitState : SortState :=
  { containers := [[demoOther, demoBetween, demoDrag]], dragEl := some demoDrag,
    rootIdx := 0, parentIdx := 0, nextEl := none, silent := false,
    silentTimerMs := none, lastTarget := none, lastDirection := none,
    pastFirstInvertThresh := false, isCircumstantialInvert := false,
    targetMoveDistance := 0, newIndex := none, newDraggableIndex := none }

theorem demoCommit_circ_false :
    circInvertAt demoMidCommitState demoMidInput
      (decide ((findNode demoMidCommitState.containers demoDrag).map Prod.fst ≠
        some demoMidInput.dstIdx)) demoOther = false := by
  decide

theorem demoCommit_dir_one :
    swapDirectionAt demoMidCommitState demoMidInput
      (decide ((findNode demoMidCommitState.containers demoDrag).map Prod.fst ≠
        some demoMidInput.dstIdx)) demoOther = 1 := by
  unfold swapDirectionAt
  rw [demoCommit_circ_false]
  norm_num [demoMidInput, getSwapDirection, effectiveSwapThreshold]

theorem demoCommit_walk_ne :
    adjWalk (demoMidCommitState.containers.getD demoMidCommitState.parentIdx [])
      (indexInState demoMidCommitState.containers demoDrag false)
      (swapDirectionAt demoMidCommitState demoMidInput
        (decide ((findNode demoMidCommitState.containers demoDrag).map Prod.fst ≠
          some demoMidInput.dstIdx)) demoOther)
      ((demoMidCommitState.containers.getD demoMidCommitState.parentIdx []).length + 2) ≠
      some demoOther := by
  rw [demoCommit_dir_one]
  decide

/-- Closed instance of the amended C8 theorem: the demo mid-swap commit sets
the guard with the 30 ms timer. -/
theorem silent_guard_mid_swap_witness :
    (midSwapBranch demoMidCommitState demoMidInput demoDrag demoOther).1.silent = true ∧
    (midSwapBranch demoMidCommitState demoMidInput demoDrag demoOther).1.silentTimerMs =
      some 30 :=
  (silent_guard_mid_swap demoMidCommitState demoMidInput demoDrag demoOther
    (by decide) (by rw [demoCommit_dir_one]; decide) demoCommit_walk_ne).2
